import Mathlib

/-!
Shallow embedding of `src/app.py` (instant-filings-bot): the
polling-dedup-filter-deliver pipeline.  Python strings are modelled as
`List Char`, the sqlite-backed seen ledger as an in-memory state record,
network responses and per-recipient delivery outcomes as explicit oracles,
and the observable side effects of one `handle_item` call as a trace of
events.  A Python exception escaping a function is modelled by a `raised`
flag (state and trace up to the raise are kept).
-/

namespace FilingsBot

/-- Python strings, modelled as lists of characters. -/
abbrev Str := List Char

/-- Python `str.lower()` (ASCII case fold, which is all the code relies on). -/
def lowerL (s : Str) : Str := s.map Char.toLower

/-- Does `hay` start with `needle`?  (Helper for the substring test.) -/
def startsWithL : Str → Str → Bool
  | [], _ => true
  | _ :: _, [] => false
  | a :: as, b :: bs => a == b && startsWithL as bs

/-- Python `needle in hay` substring containment on strings. -/
def containsSub (needle : Str) : Str → Bool
  | [] => needle.isEmpty
  | h :: t => startsWithL needle (h :: t) || containsSub needle t

/-- Python `s.endswith(suffix)`. -/
def endsWithL (suffix s : Str) : Bool := startsWithL suffix.reverse s.reverse

/-- The configuration values read from the environment at startup
(`KEYWORDS`, `WATCHLIST`, `ONLY_MATCHING`, `SEND_PDF`, `MAX_PDF_MB`,
`CHAT_IDS`), passed explicitly instead of read from globals. -/
structure Config where
  keywords : List Str
  watchlist : List Str
  onlyMatching : Bool
  sendPdf : Bool
  maxPdfMb : Rat
  chatIds : List Str

/-- One normalized Item as built by the fetchers: a dict with keys
`id`, `title`, `summary`, `link`, `published`, `company`.  `fetch_rss`
stores `None` under `company`, `fetch_nse` stores a string, so the field
is an `Option`.  Timestamps are abstracted to an opaque `Option Nat`. -/
structure Item where
  id : Str
  title : Str
  summary : Str
  link : Str
  published : Option Nat
  company : Option Str
deriving DecidableEq

/-- The durable ledger: table `seen (source, item_id)` and table
`sent_pdf (url)`, both with primary keys, i.e. sets. -/
structure St where
  seen : List (Str × Str)
  sentPdf : List Str
deriving DecidableEq

/-- Ledger read `is_seen(source, item_id)`: `SELECT 1 FROM seen WHERE source=? AND item_id=?`. -/
def is_seen (st : St) (source itemId : Str) : Bool :=
  decide ((source, itemId) ∈ st.seen)

/-- Ledger write `seen_add(source, item_id)`: `INSERT OR IGNORE INTO seen`. -/
def seen_add (st : St) (source itemId : Str) : St :=
  if (source, itemId) ∈ st.seen then st
  else { st with seen := (source, itemId) :: st.seen }

/-- Ledger read `pdf_was_sent(url)`: `SELECT 1 FROM sent_pdf WHERE url=?`. -/
def pdf_was_sent (st : St) (url : Str) : Bool :=
  decide (url ∈ st.sentPdf)

/-- Ledger write `pdf_mark_sent(url)`: `INSERT OR IGNORE INTO sent_pdf`. -/
def pdf_mark_sent (st : St) (url : Str) : St :=
  if url ∈ st.sentPdf then st
  else { st with sentPdf := url :: st.sentPdf }

/-- Heuristic `looks_like_pdf_url(url)`: `bool(url) and (url.lower().endswith(".pdf")
or "pdf" in url.lower())`. -/
def looks_like_pdf_url (url : Str) : Bool :=
  !url.isEmpty &&
    (endsWithL (String.toList ".pdf") (lowerL url) ||
      containsSub (String.toList "pdf") (lowerL url))

/-- Predicate `match_filters(text)`: lower-cases the text, then
`kw_ok = any(k in t for k in KEYWORDS) if KEYWORDS else True`,
`wl_ok = any(w in t for w in WATCHLIST) if WATCHLIST else True`,
`return kw_ok and (wl_ok if WATCHLIST else True)`.
The global `KEYWORDS` / `WATCHLIST` lists are passed as arguments. -/
def match_filters (keywords watchlist : List Str) (text : Str) : Bool :=
  let t := lowerL text
  let kw_ok := cond keywords.isEmpty true (keywords.any fun k => containsSub k t)
  let wl_ok := cond watchlist.isEmpty true (watchlist.any fun w => containsSub w t)
  kw_ok && (cond watchlist.isEmpty true wl_ok)

/-- The wording the spec itself gives for the filter (section 4.3): true iff
(`keywords` is empty OR any keyword is a substring of the lowered text)
AND (`watchlist` is empty OR any watchlist term is a substring). -/
def matches_spec (keywords watchlist : List Str) (text : Str) : Bool :=
  let t := lowerL text
  (keywords.isEmpty || keywords.any fun k => containsSub k t) &&
    (watchlist.isEmpty || watchlist.any fun w => containsSub w t)

/-- Outcome of the single HTTP GET inside `fetch_pdf_bytes`: either a
transport error (connection/read failure, anything raising inside the
`try`) or a completed response with an HTTP status, a `Content-Type` header and
the fully downloaded body (bytes abstracted as `List Nat`). -/
inductive Resp where
  | err : Resp
  | ok (status : Nat) (ctype : Str) (body : List Nat) : Resp
deriving DecidableEq

/-- Fetcher `fetch_pdf_bytes(session, url)`: `raise_for_status()` turns an HTTP
error status into an exception caught by the surrounding `except`
(returning `None`); the full body is read, then the size check
`len(content)/(1024*1024) > MAX_PDF_MB` returns `None`; then the content
type / url heuristic decides between the body and `None`. -/
def fetch_pdf_bytes (cfg : Config) (r : Resp) (url : Str) : Option (List Nat) :=
  match r with
  | Resp.err => none
  | Resp.ok status ctype body =>
    if 400 ≤ status then none
    else if (body.length : Rat) / (1024 * 1024) > cfg.maxPdfMb then none
    else if containsSub (String.toList "pdf") (lowerL ctype) || looks_like_pdf_url url then
      some body
    else none

/-- Observable side effects of processing one Item: a Telegram
`send_message` to one chat (with its per-recipient outcome, the exception
being swallowed either way), a `send_document` to one chat for a given
attachment url, the invocation of the attachment fetcher for a url, a
ledger seen-write and a ledger sent-pdf-write. -/
inductive Ev where
  | sendText (chat : Str) (ok : Bool) : Ev
  | sendDoc (chat : Str) (url : Str) (ok : Bool) : Ev
  | fetchPdf (url : Str) : Ev
  | seenWrite (source itemId : Str) : Ev
  | pdfMarkSent (url : Str) : Ev
deriving DecidableEq

/-- Notifier `notify_text(msg)`: loops over `CHAT_IDS`, each `send_message` in a
`try/except` that swallows failures, so every recipient is attempted and
the call always returns.  `sendOk` is the per-recipient delivery oracle. -/
def notify_text (cfg : Config) (sendOk : Str → Bool) : List Ev :=
  cfg.chatIds.map fun cid => Ev.sendText cid (sendOk cid)

/-- Notifier `notify_pdf(caption, filename, content)`: loops over `CHAT_IDS`, each
`send_document` in a `try/except` that swallows failures.  The url whose
bytes are being delivered is recorded in each event. -/
def notify_pdf (cfg : Config) (sendOk : Str → Bool) (url : Str) : List Ev :=
  cfg.chatIds.map fun cid => Ev.sendDoc cid url (sendOk cid)

/-- The attachment block of `handle_item`:
`if SEND_PDF and link and looks_like_pdf_url(link) and not pdf_was_sent(link):`
fetch the bytes; `if pdf:` (truthy -- `None` and empty bytes both fail)
deliver the document and then `pdf_mark_sent(link)`.  `resp` is the
response oracle consumed by `fetch_pdf_bytes`. -/
def attach_step (cfg : Config) (resp : Str → Resp) (sendOk : Str → Bool)
    (link : Str) (st : St) : St × List Ev :=
  if cfg.sendPdf && !link.isEmpty && looks_like_pdf_url link && !pdf_was_sent st link then
    match fetch_pdf_bytes cfg (resp link) link with
    | none => (st, [Ev.fetchPdf link])
    | some pdf =>
      if pdf.isEmpty then (st, [Ev.fetchPdf link])
      else
        (pdf_mark_sent st link,
          Ev.fetchPdf link :: (notify_pdf cfg sendOk link ++ [Ev.pdfMarkSent link]))
  else (st, [])

/-- Result of `handle_item`: final ledger state, trace of effects, and
whether an exception escaped the call (state and trace up to the raise). -/
structure HRes where
  st : St
  trace : List Ev
  raised : Bool
deriving DecidableEq

/-- Python `" ".join([title, summary, company])` when `company` is a string. -/
def joinText (title summary company : Str) : Str :=
  title ++ ' ' :: summary ++ ' ' :: company

/-- Python `should = match_filters(text) if ONLY_MATCHING else True` for the text
`" ".join([title, summary, company])`. -/
def should_notify (cfg : Config) (it : Item) (company : Str) : Bool :=
  cond cfg.onlyMatching
    (match_filters cfg.keywords cfg.watchlist (joinText it.title it.summary company)) true

/-- The `if should:` body of `handle_item`: `notify_text` to every
recipient followed by the attachment block; state and trace unchanged
when the filter rejects. -/
def notify_block (cfg : Config) (resp : Str → Resp) (sendOk : Str → Bool)
    (it : Item) (company : Str) (st : St) : St × List Ev :=
  if should_notify cfg it company then
    ((attach_step cfg resp sendOk it.link st).1,
      notify_text cfg sendOk ++ (attach_step cfg resp sendOk it.link st).2)
  else (st, [])

/-- Processor `handle_item(session, source, it)`.  `uid = it.get("id","")`; empty or
already-seen ids return immediately.  `company = it.get("company","")`
yields the stored value, which is `None` for RSS Items, so the subsequent
`" ".join([title, summary, company])` raises `TypeError` (modelled by
`raised := true` with no effects).  Otherwise the filter (bypassed when
`ONLY_MATCHING` is off) gates `notify_text` and the attachment block, and
`seen_add(source, uid)` runs last in every non-raising path. -/
def handle_item (cfg : Config) (resp : Str → Resp) (sendOk : Str → Bool)
    (source : Str) (it : Item) (st : St) : HRes :=
  if it.id.isEmpty || is_seen st source it.id then ⟨st, [], false⟩
  else
    match it.company with
    | none => ⟨st, [], true⟩
    | some company =>
      ⟨seen_add (notify_block cfg resp sendOk it company st).1 source it.id,
        (notify_block cfg resp sendOk it company st).2 ++ [Ev.seenWrite source it.id],
        false⟩

/-- The body of one poll cycle `for it in reversed(items): await
handle_item(...)`: sequential processing of a list of Items; an exception
from `handle_item` aborts the remainder of the loop (it is caught by the
`try` around the whole cycle). -/
def process_items (cfg : Config) (resp : Str → Resp) (sendOk : Str → Bool)
    (source : Str) : List Item → St → St × List Ev × Bool
  | [], st => (st, [], false)
  | it :: rest, st =>
    let r := handle_item cfg resp sendOk source it st
    if r.raised then (r.st, r.trace, true)
    else
      let q := process_items cfg resp sendOk source rest r.st
      (q.1, r.trace ++ q.2.1, q.2.2)

/-- One successful-fetch iteration of a source loop (`loop_sebi` /
`loop_bse` / `loop_nse`): the fetched Items are processed in reversed
order. -/
def process_cycle (cfg : Config) (resp : Str → Resp) (sendOk : Str → Bool)
    (source : Str) (items : List Item) (st : St) : St × List Ev × Bool :=
  process_items cfg resp sendOk source items.reverse st

/-- The seen-write content of one event, if any. -/
def evSeenWrite : Ev → Option (Str × Str)
  | Ev.seenWrite s i => some (s, i)
  | _ => none

/-- Projection of a trace to its ledger seen-writes, in order. -/
def seenWrites (tr : List Ev) : List (Str × Str) :=
  tr.filterMap evSeenWrite

/-- One RSS feed entry as `fetch_rss` reads it: `getattr(e, key, "")`
for `id`, `title`, `link`, `summary` (absent attributes collapse to `""`,
which the `or` chains treat the same as `None`), and an optional
timestamp. -/
structure RssEntry where
  id : Str
  title : Str
  link : Str
  summary : Str
  published : Option Nat
deriving DecidableEq

/-- Python `a or b` on strings: `a` if non-empty (truthy) else `b`. -/
def pyOr (a b : Str) : Str := if a.isEmpty then b else a

/-- The per-entry normalization inside `fetch_rss`:
`uid = getattr(e,"id","") or getattr(e,"link","") or getattr(e,"title","")`,
and the Item dict has `"company": None`. -/
def fetch_rss_item (e : RssEntry) : Item :=
  { id := pyOr (pyOr e.id e.link) e.title
    title := e.title
    summary := e.summary
    link := e.link
    published := e.published
    company := none }

/-- One NSE JSON record as `fetch_nse` reads it: every key is optionally
present (`r.get(k)` gives `None` when absent; `r.get(k,"")` gives `""`).
Numeric upstream values are abstracted to their `str()` images; the
`dtparser` timestamp is abstracted to an opaque `Option Nat`. -/
structure NseRecord where
  id : Option Str
  slno : Option Str
  attachmentName : Option Str
  sm_desc : Option Str
  headline : Option Str
  desc : Option Str
  company : Option Str
  companyName : Option Str
  symbol : Option Str
  attchmnt : Option Str
  attachment : Option Str
  pdfUrl : Option Str
  more : Option Str
  published : Option Nat
deriving DecidableEq

/-- Python `r.get(k) or rest` in a truthiness chain: an absent key and an
empty string are both falsy, so both defer to `rest`. -/
def pyOrO (a : Option Str) (rest : Str) : Str := pyOr (a.getD []) rest

/-- The per-record normalization inside `fetch_nse`:
`uid = str(r.get("id") or r.get("slno") or r.get("ATTACHMENTNAME") or
(r.get("sm_desc","")+r.get("symbol","")))`, `title`, `comp` and `link`
by their own `or` chains, the relative-link prefixing, and the Item dict
with `"id": uid or title`. -/
def fetch_nse_item (r : NseRecord) : Item :=
  let uid := pyOrO r.id (pyOrO r.slno (pyOrO r.attachmentName
    ((r.sm_desc.getD []) ++ (r.symbol.getD []))))
  let title := pyOrO r.sm_desc (pyOrO r.headline (pyOrO r.desc []))
  let comp := pyOrO r.company (pyOrO r.companyName (pyOrO r.symbol []))
  let link0 := pyOrO r.attchmnt (pyOrO r.attachment (pyOrO r.pdfUrl (pyOrO r.more [])))
  let link := if !link0.isEmpty && startsWithL (String.toList "/") link0 then
    String.toList "https://www.nseindia.com" ++ link0 else link0
  { id := pyOr uid title
    title := pyOr title (String.toList "NSE Announcement: " ++ comp)
    summary := comp
    link := link
    published := r.published
    company := some comp }

/-! ### Ledger helper lemmas -/

theorem is_seen_eq_true_iff {st : St} {s i : Str} :
    is_seen st s i = true ↔ (s, i) ∈ st.seen := by
  simp [is_seen]

theorem is_seen_eq_false_iff {st : St} {s i : Str} :
    is_seen st s i = false ↔ (s, i) ∉ st.seen := by
  simp [is_seen]

theorem seen_add_mem (st : St) (s i : Str) : (s, i) ∈ (seen_add st s i).seen := by
  unfold seen_add
  split
  · assumption
  · exact List.mem_cons_self _ _

theorem seen_add_of_mem {st : St} {s i : Str} (h : (s, i) ∈ st.seen) :
    seen_add st s i = st := by
  unfold seen_add
  exact if_pos h

theorem seen_add_seen_of_not_mem {st : St} {s i : Str} (h : (s, i) ∉ st.seen) :
    (seen_add st s i).seen = (s, i) :: st.seen := by
  unfold seen_add
  rw [if_neg h]

theorem seen_add_sentPdf (st : St) (s i : Str) :
    (seen_add st s i).sentPdf = st.sentPdf := by
  unfold seen_add
  split <;> rfl

theorem pdf_mark_sent_seen (st : St) (u : Str) :
    (pdf_mark_sent st u).seen = st.seen := by
  unfold pdf_mark_sent
  split <;> rfl

/-! ### Concrete fixtures used by witnesses and counterexamples -/

/-- A small concrete configuration (one recipient, one keyword,
filtering on, attachments on, 40 MB cap). -/
def cfg0 : Config :=
  { keywords := [String.toList "bonus"]
    watchlist := []
    onlyMatching := true
    sendPdf := true
    maxPdfMb := 40
    chatIds := [String.toList "c1"] }

/-- The empty ledger. -/
def st0 : St := ⟨[], []⟩

/-- A response oracle that always answers with a small PDF body. -/
def resp0 : Str → Resp := fun _ => Resp.ok 200 (String.toList "application/pdf") [1, 2, 3]

/-- A delivery oracle whose sends always succeed. -/
def send0 : Str → Bool := fun _ => true

/-- An RSS feed entry as `fetch_sebi` would yield it: a native id and a
title, no attachment link. -/
def rssEntry0 : RssEntry :=
  { id := String.toList "rss-1"
    title := String.toList "Board approves Bonus issue"
    link := []
    summary := []
    published := none }

/-- The size-cap comparison for `cfg0` at a 3-byte body, evaluated. -/
theorem cfg0_size_ok : ((3 : Nat) : Rat) / (1024 * 1024) > cfg0.maxPdfMb ↔ False := by
  simp only [cfg0]
  norm_num

/-! ### Claims C1-C4 -/

/-- C1: the claim says processing a fresh Item with a non-empty id always
ends with the ledger seen-write.  The code violates this for every Item
built by `fetch_rss` (all SEBI/BSE Items): their `company` field is
`None`, `it.get("company","")` returns that `None`, and
`" ".join([title, summary, company])` raises `TypeError` before any
notification or ledger write, so afterwards `is_seen` is still false.
This evaluates `handle_item` at such an Item. -/
theorem handle_item_rss_item_raises_before_seen_write :
    handle_item cfg0 resp0 send0 (String.toList "SEBI") (fetch_rss_item rssEntry0) st0
      = ⟨st0, [], true⟩
    ∧ (fetch_rss_item rssEntry0).id = String.toList "rss-1"
    ∧ is_seen st0 (String.toList "SEBI") (fetch_rss_item rssEntry0).id = false := by
  refine ⟨?_, by decide, by decide⟩
  with_unfolding_all decide

/-- C2: `seen_add` is idempotent (a second insert of the same
`(source, item_id)` is a no-op and leaves `is_seen` true), and
`handle_item` on an Item whose id is already in the seen ledger returns
immediately: no notification events, no state change, no exception. -/
theorem seen_add_idempotent_and_no_renotify (cfg : Config) (resp : Str → Resp)
    (sendOk : Str → Bool) (st : St) (source itemId : Str) (it : Item)
    (h : is_seen st source it.id = true) :
    seen_add (seen_add st source itemId) source itemId = seen_add st source itemId
    ∧ is_seen (seen_add (seen_add st source itemId) source itemId) source itemId = true
    ∧ handle_item cfg resp sendOk source it st = ⟨st, [], false⟩ := by
  have h1 := seen_add_mem st source itemId
  refine ⟨seen_add_of_mem h1, ?_, ?_⟩
  · rw [seen_add_of_mem h1]
    exact is_seen_eq_true_iff.mpr h1
  · simp [handle_item, h]

/-- A ledger that has already recorded the Item of `rssEntry0` for SEBI. -/
def stSeen : St := ⟨[(String.toList "SEBI", String.toList "rss-1")], []⟩

/-- An Item whose id is the one recorded in `stSeen`. -/
def itemSeen : Item :=
  { id := String.toList "rss-1"
    title := String.toList "Board approves Bonus issue"
    summary := []
    link := []
    published := none
    company := some [] }

theorem seen_add_idempotent_and_no_renotify_witness :
    is_seen stSeen (String.toList "SEBI") itemSeen.id = true
    ∧ (seen_add (seen_add stSeen (String.toList "SEBI") (String.toList "rss-1"))
          (String.toList "SEBI") (String.toList "rss-1")
        = seen_add stSeen (String.toList "SEBI") (String.toList "rss-1")
      ∧ is_seen (seen_add (seen_add stSeen (String.toList "SEBI") (String.toList "rss-1"))
          (String.toList "SEBI") (String.toList "rss-1"))
          (String.toList "SEBI") (String.toList "rss-1") = true
      ∧ handle_item cfg0 resp0 send0 (String.toList "SEBI") itemSeen stSeen
          = ⟨stSeen, [], false⟩) :=
  ⟨by decide,
    seen_add_idempotent_and_no_renotify cfg0 resp0 send0 stSeen
      (String.toList "SEBI") (String.toList "rss-1") itemSeen (by decide)⟩

/-- C3: an Item with the empty id is rejected by the guard
`if not uid or is_seen(...)` before anything happens: `handle_item`
returns with the ledger unchanged, an empty effect trace (no notification,
no attachment fetch, no ledger write) and no exception. -/
theorem handle_item_empty_id_no_effects (cfg : Config) (resp : Str → Resp)
    (sendOk : Str → Bool) (source : Str) (it : Item) (st : St)
    (h : it.id = []) :
    handle_item cfg resp sendOk source it st = ⟨st, [], false⟩ := by
  simp [handle_item, h]

/-- An Item with an empty id, as `fetch_rss` emits for an entry with no
id, link or title. -/
def itemEmptyId : Item :=
  { id := []
    title := []
    summary := String.toList "some summary"
    link := String.toList "https://x/a.pdf"
    published := none
    company := some (String.toList "ACME") }

theorem handle_item_empty_id_no_effects_witness :
    itemEmptyId.id = []
    ∧ handle_item cfg0 resp0 send0 (String.toList "SEBI") itemEmptyId st0
        = ⟨st0, [], false⟩ :=
  ⟨by decide,
    handle_item_empty_id_no_effects cfg0 resp0 send0 (String.toList "SEBI")
      itemEmptyId st0 (by decide)⟩

/-- C4: `match_filters` agrees everywhere with the description the spec gives of
the predicate (lower-case the text; keyword clause neutral when the
keyword list is empty, otherwise any-substring; watchlist clause neutral
when the watchlist is empty, otherwise any-substring), and the four spec
test vectors evaluate as stated. -/
theorem match_filters_pure_spec_and_vectors :
    (∀ keywords watchlist text,
        match_filters keywords watchlist text = matches_spec keywords watchlist text)
    ∧ match_filters [String.toList "bonus"] []
        (String.toList "Board approves Bonus issue") = true
    ∧ match_filters [String.toList "bonus"] []
        (String.toList "Quarterly results") = false
    ∧ match_filters [String.toList "order win"] [String.toList "xyz"]
        (String.toList "ABC Corp order win") = false
    ∧ match_filters [String.toList "order win"] [String.toList "xyz"]
        (String.toList "XYZ Corp order win") = true := by
  refine ⟨?_, by decide, by decide, by decide, by decide⟩
  intro keywords watchlist text
  cases keywords <;> cases watchlist <;> simp [match_filters, matches_spec]

/-! ### Trace-shape lemmas -/

theorem notify_text_events (cfg : Config) (sendOk : Str → Bool) (e : Ev)
    (hmem : e ∈ notify_text cfg sendOk) : ∃ c ok, e = Ev.sendText c ok := by
  simp only [notify_text, List.mem_map] at hmem
  obtain ⟨c, _, rfl⟩ := hmem
  exact ⟨c, sendOk c, rfl⟩

theorem notify_pdf_events (cfg : Config) (sendOk : Str → Bool) (url : Str) (e : Ev)
    (hmem : e ∈ notify_pdf cfg sendOk url) : ∃ c ok, e = Ev.sendDoc c url ok := by
  simp only [notify_pdf, List.mem_map] at hmem
  obtain ⟨c, _, rfl⟩ := hmem
  exact ⟨c, sendOk c, rfl⟩

theorem attach_step_events (cfg : Config) (resp : Str → Resp) (sendOk : Str → Bool)
    (link : Str) (st : St) (e : Ev)
    (hmem : e ∈ (attach_step cfg resp sendOk link st).2) :
    (e = Ev.fetchPdf link ∨ (∃ c ok, e = Ev.sendDoc c link ok) ∨ e = Ev.pdfMarkSent link)
    ∧ pdf_was_sent st link = false := by
  unfold attach_step at hmem
  split at hmem
  case isTrue hguard =>
    have hps : pdf_was_sent st link = false := by
      simp only [Bool.and_eq_true, Bool.not_eq_true'] at hguard
      exact hguard.2
    refine ⟨?_, hps⟩
    split at hmem
    · simp only [List.mem_singleton] at hmem
      exact Or.inl hmem
    · split at hmem
      · simp only [List.mem_singleton] at hmem
        exact Or.inl hmem
      · simp only [List.mem_cons, List.mem_append, List.mem_singleton,
          List.not_mem_nil, or_false] at hmem
        rcases hmem with h1 | h2 | h3
        · exact Or.inl h1
        · exact Or.inr (Or.inl (notify_pdf_events cfg sendOk link e h2))
        · exact Or.inr (Or.inr h3)
  case isFalse _ => simp at hmem

theorem notify_block_events (cfg : Config) (resp : Str → Resp) (sendOk : Str → Bool)
    (it : Item) (company : Str) (st : St) (e : Ev)
    (hmem : e ∈ (notify_block cfg resp sendOk it company st).2) :
    (∃ c ok, e = Ev.sendText c ok)
    ∨ ((e = Ev.fetchPdf it.link ∨ (∃ c ok, e = Ev.sendDoc c it.link ok)
          ∨ e = Ev.pdfMarkSent it.link)
        ∧ pdf_was_sent st it.link = false) := by
  unfold notify_block at hmem
  split at hmem
  · simp only [List.mem_append] at hmem
    rcases hmem with h1 | h2
    · exact Or.inl (notify_text_events cfg sendOk e h1)
    · exact Or.inr (attach_step_events cfg resp sendOk it.link st e h2)
  · simp at hmem

theorem handle_item_events (cfg : Config) (resp : Str → Resp) (sendOk : Str → Bool)
    (source : Str) (it : Item) (st : St) (e : Ev)
    (hmem : e ∈ (handle_item cfg resp sendOk source it st).trace) :
    (∃ c ok, e = Ev.sendText c ok)
    ∨ e = Ev.seenWrite source it.id
    ∨ ((e = Ev.fetchPdf it.link ∨ (∃ c ok, e = Ev.sendDoc c it.link ok)
          ∨ e = Ev.pdfMarkSent it.link)
        ∧ pdf_was_sent st it.link = false) := by
  unfold handle_item at hmem
  split at hmem
  · simp at hmem
  · split at hmem
    · simp at hmem
    · simp only [List.mem_append, List.mem_singleton] at hmem
      rcases hmem with h1 | h2
      · rcases notify_block_events cfg resp sendOk it _ st e h1 with h | h
        · exact Or.inl h
        · exact Or.inr (Or.inr h)
      · exact Or.inr (Or.inl h2)

/-! ### Claim C6 -/

/-- C6: when `url` is already recorded in the `sent_pdf` set, processing
any Item never invokes the attachment fetcher for `url` and never
delivers a document for `url`: the guard
`not pdf_was_sent(link)` blocks the attachment block when the link of the Item
is `url`, and an Item with a different link only ever touches its own
link. -/
theorem handle_item_no_refetch_of_sent_attachment (cfg : Config)
    (resp : Str → Resp) (sendOk : Str → Bool) (source : Str) (it : Item)
    (st : St) (url : Str) (h : pdf_was_sent st url = true) :
    Ev.fetchPdf url ∉ (handle_item cfg resp sendOk source it st).trace
    ∧ ∀ c ok, Ev.sendDoc c url ok ∉ (handle_item cfg resp sendOk source it st).trace := by
  constructor
  · intro hmem
    rcases handle_item_events cfg resp sendOk source it st _ hmem with ⟨c, ok, he⟩ | he | ⟨hsh, hps⟩
    · exact Ev.noConfusion he
    · exact Ev.noConfusion he
    · rcases hsh with h1 | ⟨c, ok, h2⟩ | h3
      · rw [Ev.fetchPdf.injEq] at h1
        rw [h1] at h
        rw [h] at hps
        exact Bool.noConfusion hps
      · exact Ev.noConfusion h2
      · exact Ev.noConfusion h3
  · intro c ok hmem
    rcases handle_item_events cfg resp sendOk source it st _ hmem with ⟨c', ok', he⟩ | he | ⟨hsh, hps⟩
    · exact Ev.noConfusion he
    · exact Ev.noConfusion he
    · rcases hsh with h1 | ⟨c', ok', h2⟩ | h3
      · exact Ev.noConfusion h1
      · rw [Ev.sendDoc.injEq] at h2
        rw [h2.2.1] at h
        rw [h] at hps
        exact Bool.noConfusion hps
      · exact Ev.noConfusion h3

/-- A ledger that has already recorded delivery of `https://x/a.pdf`. -/
def stSentPdf : St := ⟨[], [String.toList "https://x/a.pdf"]⟩

/-- An Item (fresh id, matching title, present company) whose link is the
already-sent url. -/
def itemPdf : Item :=
  { id := String.toList "n-1"
    title := String.toList "Board approves Bonus issue"
    summary := []
    link := String.toList "https://x/a.pdf"
    published := none
    company := some (String.toList "ACME") }

theorem handle_item_no_refetch_of_sent_attachment_witness :
    pdf_was_sent stSentPdf (String.toList "https://x/a.pdf") = true
    ∧ (Ev.fetchPdf (String.toList "https://x/a.pdf")
          ∉ (handle_item cfg0 resp0 send0 (String.toList "NSE") itemPdf stSentPdf).trace
      ∧ ∀ c ok, Ev.sendDoc c (String.toList "https://x/a.pdf") ok
          ∉ (handle_item cfg0 resp0 send0 (String.toList "NSE") itemPdf stSentPdf).trace) :=
  ⟨by decide,
    handle_item_no_refetch_of_sent_attachment cfg0 resp0 send0
      (String.toList "NSE") itemPdf stSentPdf (String.toList "https://x/a.pdf")
      (by decide)⟩

/-! ### Characterization of the sent-pdf ledger write -/

theorem attach_step_marks (cfg : Config) (resp : Str → Resp) (sendOk : Str → Bool)
    (link : Str) (st : St) (url : Str) :
    Ev.pdfMarkSent url ∈ (attach_step cfg resp sendOk link st).2
    ↔ (url = link ∧ cfg.sendPdf = true ∧ link ≠ []
        ∧ looks_like_pdf_url link = true ∧ pdf_was_sent st link = false
        ∧ ∃ b, fetch_pdf_bytes cfg (resp link) link = some b ∧ b ≠ []) := by
  by_cases hsend :
      (cfg.sendPdf && !link.isEmpty && looks_like_pdf_url link && !pdf_was_sent st link) = true
  · simp only [Bool.and_eq_true, Bool.not_eq_true'] at hsend
    obtain ⟨⟨⟨h1, h2⟩, h3⟩, h4⟩ := hsend
    have hne : link ≠ [] := by
      intro h
      rw [h] at h2
      exact Bool.noConfusion h2
    unfold attach_step
    rw [if_pos (by simp [Bool.and_eq_true, Bool.not_eq_true', h1, h2, h3, h4])]
    cases hfe : fetch_pdf_bytes cfg (resp link) link with
    | none => simp [hfe]
    | some pdf =>
      by_cases hpe : pdf.isEmpty = true
      · rw [List.isEmpty_iff] at hpe
        subst hpe
        simp [hfe]
      · rw [Bool.not_eq_true, List.isEmpty_eq_false] at hpe
        simp [notify_pdf, hfe, hpe, h1, h3, h4, hne]
  · unfold attach_step
    rw [if_neg hsend]
    simp only [List.not_mem_nil, false_iff]
    rintro ⟨rfl, h1, h2, h3, h4, b, hb, hbne⟩
    exact hsend (by simp [Bool.and_eq_true, Bool.not_eq_true', h1, h3, h4,
      List.isEmpty_eq_false, h2])

theorem notify_block_marks (cfg : Config) (resp : Str → Resp) (sendOk : Str → Bool)
    (it : Item) (company : Str) (st : St) (url : Str) :
    Ev.pdfMarkSent url ∈ (notify_block cfg resp sendOk it company st).2
    ↔ should_notify cfg it company = true
      ∧ Ev.pdfMarkSent url ∈ (attach_step cfg resp sendOk it.link st).2 := by
  unfold notify_block
  split
  case isTrue hs => simp [hs, notify_text]
  case isFalse hs => simp [hs]

theorem handle_item_marks (cfg : Config) (resp : Str → Resp) (sendOk : Str → Bool)
    (source : Str) (it : Item) (st : St) (url : Str) :
    Ev.pdfMarkSent url ∈ (handle_item cfg resp sendOk source it st).trace
    ↔ it.id ≠ [] ∧ is_seen st source it.id = false
      ∧ ∃ c, it.company = some c ∧ should_notify cfg it c = true
        ∧ Ev.pdfMarkSent url ∈ (attach_step cfg resp sendOk it.link st).2 := by
  unfold handle_item
  split
  case isTrue hguard =>
    simp only [List.not_mem_nil, false_iff]
    rintro ⟨hid, hseen, _⟩
    rcases (Bool.or_eq_true _ _).mp hguard with h | h
    · exact hid (List.isEmpty_iff.mp h)
    · rw [h] at hseen
      exact Bool.noConfusion hseen
  case isFalse hguard =>
    rw [Bool.not_eq_true, Bool.or_eq_false_iff] at hguard
    obtain ⟨hid0, hseen⟩ := hguard
    have hid : it.id ≠ [] := by
      rw [List.isEmpty_eq_false] at hid0
      exact hid0
    split
    case h_1 hc =>
      simp only [List.not_mem_nil, false_iff]
      rintro ⟨_, _, c, hcc, _⟩
      rw [hc] at hcc
      exact Option.noConfusion hcc
    case h_2 c hc =>
      simp only [HRes.trace, List.mem_append, List.mem_singleton]
      rw [notify_block_marks]
      constructor
      · rintro (⟨hs, hm⟩ | he)
        · exact ⟨hid, hseen, c, hc, hs, hm⟩
        · exact absurd he (fun h => Ev.noConfusion h)
      · rintro ⟨_, _, c', hc', hs, hm⟩
        rw [hc] at hc'
        obtain rfl := Option.some.inj hc'
        exact Or.inl ⟨hs, hm⟩

/-! ### Claim C7 -/

/-- A delivery oracle whose sends all fail (every recipient raises, each
exception swallowed by the `except` inside `notify_text` / `notify_pdf`). -/
def sendFail : Str → Bool := fun _ => false

/-- C7 counterexample: the claim says the url is marked sent exactly when
the attachment was fetched successfully AND its delivery to the
recipients succeeded.  Here delivery fails for every recipient (the only
`send_document` event carries `ok = false`), yet `pdf_mark_sent` still
runs and the url lands in the sent-pdf ledger: marking does not depend on
delivery outcome. -/
theorem pdf_marked_sent_despite_all_deliveries_failing :
    (handle_item cfg0 resp0 sendFail (String.toList "NSE") itemPdf st0).trace
      = [Ev.sendText (String.toList "c1") false,
         Ev.fetchPdf (String.toList "https://x/a.pdf"),
         Ev.sendDoc (String.toList "c1") (String.toList "https://x/a.pdf") false,
         Ev.pdfMarkSent (String.toList "https://x/a.pdf"),
         Ev.seenWrite (String.toList "NSE") (String.toList "n-1")]
    ∧ pdf_was_sent (handle_item cfg0 resp0 sendFail (String.toList "NSE") itemPdf st0).st
        (String.toList "https://x/a.pdf") = true := by
  constructor
  · with_unfolding_all decide
  · with_unfolding_all decide

/-- C7 amended: `pdf_mark_sent(url)` is called exactly when the Item was
fresh (non-empty unseen id, company present), the filter passed (or was
bypassed), the attachment conditions held (`SEND_PDF`, non-empty
pdf-looking link, url not already sent) and `fetch_pdf_bytes` returned a
non-empty body; the delivery attempt happens first but its per-recipient
outcome is swallowed and does not condition the marking. -/
theorem pdf_mark_sent_iff_fetch_succeeds (cfg : Config) (resp : Str → Resp)
    (sendOk : Str → Bool) (source : Str) (it : Item) (st : St) (url : Str) :
    Ev.pdfMarkSent url ∈ (handle_item cfg resp sendOk source it st).trace
    ↔ (url = it.link ∧ it.id ≠ [] ∧ is_seen st source it.id = false
        ∧ (∃ c, it.company = some c ∧ should_notify cfg it c = true)
        ∧ cfg.sendPdf = true ∧ it.link ≠ [] ∧ looks_like_pdf_url it.link = true
        ∧ pdf_was_sent st it.link = false
        ∧ ∃ b, fetch_pdf_bytes cfg (resp it.link) it.link = some b ∧ b ≠ []) := by
  rw [handle_item_marks]
  constructor
  · rintro ⟨hid, hseen, c, hc, hs, hm⟩
    rw [attach_step_marks] at hm
    obtain ⟨hurl, h1, h2, h3, h4, hb⟩ := hm
    exact ⟨hurl, hid, hseen, ⟨c, hc, hs⟩, h1, h2, h3, h4, hb⟩
  · rintro ⟨hurl, hid, hseen, ⟨c, hc, hs⟩, h1, h2, h3, h4, hb⟩
    refine ⟨hid, hseen, c, hc, hs, ?_⟩
    rw [attach_step_marks]
    exact ⟨hurl, h1, h2, h3, h4, hb⟩

/-! ### Claims C8 and C9 -/

/-- C8: the size check `len(content)/(1024*1024) > MAX_PDF_MB` runs on the
fully downloaded body and yields `None` when it exceeds the cap; and
whenever `fetch_pdf_bytes` does return bytes, they are exactly the full
response body and that body passed the size check — no partial or
oversized document is ever returned. -/
theorem fetch_pdf_bytes_size_reject_full_body (cfg : Config) (r : Resp) (url : Str) :
    (∀ status ctype body, r = Resp.ok status ctype body →
        (body.length : Rat) / (1024 * 1024) > cfg.maxPdfMb →
        fetch_pdf_bytes cfg r url = none)
    ∧ (∀ b, fetch_pdf_bytes cfg r url = some b →
        ∃ status ctype, r = Resp.ok status ctype b
          ∧ ¬ ((b.length : Rat) / (1024 * 1024) > cfg.maxPdfMb)) := by
  constructor
  · rintro status ctype body rfl hsz
    simp only [fetch_pdf_bytes]
    by_cases h4 : 400 ≤ status
    · rw [if_pos h4]
    · rw [if_neg h4, if_pos hsz]
  · intro b hb
    cases r with
    | err => exact Option.noConfusion hb
    | ok status ctype body =>
      simp only [fetch_pdf_bytes] at hb
      by_cases h4 : 400 ≤ status
      · rw [if_pos h4] at hb
        exact Option.noConfusion hb
      · rw [if_neg h4] at hb
        by_cases hsz : (body.length : Rat) / (1024 * 1024) > cfg.maxPdfMb
        · rw [if_pos hsz] at hb
          exact Option.noConfusion hb
        · rw [if_neg hsz] at hb
          by_cases hty :
              (containsSub (String.toList "pdf") (lowerL ctype)
                || looks_like_pdf_url url) = true
          · rw [if_pos hty] at hb
            obtain rfl := Option.some.inj hb
            exact ⟨status, ctype, rfl, hsz⟩
          · rw [if_neg hty] at hb
            exact Option.noConfusion hb

/-- A configuration whose attachment size cap is one byte worth of
megabytes, so a two-byte body exceeds it. -/
def cfgTiny : Config :=
  { keywords := []
    watchlist := []
    onlyMatching := true
    sendPdf := true
    maxPdfMb := 1 / 1048576
    chatIds := [String.toList "c1"] }

theorem cfgTiny_oversize :
    (((2 : Nat) : Rat)) / (1024 * 1024) > cfgTiny.maxPdfMb := by
  simp only [cfgTiny]
  norm_num

theorem fetch_pdf_bytes_size_reject_full_body_witness :
    ((([1, 2] : List Nat).length : Rat) / (1024 * 1024) > cfgTiny.maxPdfMb)
    ∧ fetch_pdf_bytes cfgTiny
        (Resp.ok 200 (String.toList "application/pdf") [1, 2])
        (String.toList "https://x/a.pdf") = none :=
  ⟨cfgTiny_oversize,
    (fetch_pdf_bytes_size_reject_full_body cfgTiny
        (Resp.ok 200 (String.toList "application/pdf") [1, 2])
        (String.toList "https://x/a.pdf")).1
      200 (String.toList "application/pdf") [1, 2] rfl cfgTiny_oversize⟩

/-- C9: every transport failure (connection/read error, or an HTTP error
status via `raise_for_status`) is swallowed by the `except` and yields
`None`; and a completed response whose content type does not contain
"pdf" while the url fails the pdf heuristic also yields `None`. -/
theorem fetch_pdf_bytes_error_and_type_reject (cfg : Config) (url : Str) :
    fetch_pdf_bytes cfg Resp.err url = none
    ∧ (∀ status ctype body, 400 ≤ status →
        fetch_pdf_bytes cfg (Resp.ok status ctype body) url = none)
    ∧ (∀ status ctype body,
        containsSub (String.toList "pdf") (lowerL ctype) = false →
        looks_like_pdf_url url = false →
        fetch_pdf_bytes cfg (Resp.ok status ctype body) url = none) := by
  refine ⟨rfl, ?_, ?_⟩
  · intro status ctype body h4
    simp only [fetch_pdf_bytes]
    rw [if_pos h4]
  · intro status ctype body hct hurl
    simp only [fetch_pdf_bytes]
    by_cases h4 : 400 ≤ status
    · rw [if_pos h4]
    · rw [if_neg h4]
      by_cases hsz : (body.length : Rat) / (1024 * 1024) > cfg.maxPdfMb
      · rw [if_pos hsz]
      · rw [if_neg hsz,
          if_neg (by simp only [Bool.or_eq_true, not_or, Bool.not_eq_true]; exact ⟨hct, hurl⟩)]

theorem fetch_pdf_bytes_error_and_type_reject_witness :
    fetch_pdf_bytes cfg0 Resp.err (String.toList "https://x/page") = none
    ∧ (400 ≤ 404
        ∧ fetch_pdf_bytes cfg0 (Resp.ok 404 (String.toList "text/html") [1])
            (String.toList "https://x/page") = none)
    ∧ (containsSub (String.toList "pdf") (lowerL (String.toList "text/html")) = false
        ∧ looks_like_pdf_url (String.toList "https://x/page") = false
        ∧ fetch_pdf_bytes cfg0 (Resp.ok 200 (String.toList "text/html") [1])
            (String.toList "https://x/page") = none) :=
  ⟨(fetch_pdf_bytes_error_and_type_reject cfg0 (String.toList "https://x/page")).1,
    ⟨by norm_num,
      (fetch_pdf_bytes_error_and_type_reject cfg0 (String.toList "https://x/page")).2.1
        404 (String.toList "text/html") [1] (by norm_num)⟩,
    ⟨by decide, by decide,
      (fetch_pdf_bytes_error_and_type_reject cfg0 (String.toList "https://x/page")).2.2
        200 (String.toList "text/html") [1] (by decide) (by decide)⟩⟩

/-! ### Seen-write bookkeeping lemmas -/

theorem seenWrites_append (l1 l2 : List Ev) :
    seenWrites (l1 ++ l2) = seenWrites l1 ++ seenWrites l2 := by
  simp [seenWrites, List.filterMap_append]

theorem seenWrites_map_sendText (sendOk : Str → Bool) (l : List Str) :
    seenWrites (l.map fun c => Ev.sendText c (sendOk c)) = [] := by
  induction l with
  | nil => rfl
  | cons c t ih =>
    simp only [List.map_cons, seenWrites, List.filterMap_cons] at ih ⊢
    exact ih

theorem seenWrites_map_sendDoc (sendOk : Str → Bool) (url : Str) (l : List Str) :
    seenWrites (l.map fun c => Ev.sendDoc c url (sendOk c)) = [] := by
  induction l with
  | nil => rfl
  | cons c t ih =>
    simp only [List.map_cons, seenWrites, List.filterMap_cons] at ih ⊢
    exact ih

theorem seenWrites_notify_text (cfg : Config) (sendOk : Str → Bool) :
    seenWrites (notify_text cfg sendOk) = [] :=
  seenWrites_map_sendText sendOk cfg.chatIds

theorem seenWrites_notify_pdf (cfg : Config) (sendOk : Str → Bool) (url : Str) :
    seenWrites (notify_pdf cfg sendOk url) = [] :=
  seenWrites_map_sendDoc sendOk url cfg.chatIds

theorem seenWrites_attach_step (cfg : Config) (resp : Str → Resp)
    (sendOk : Str → Bool) (link : Str) (st : St) :
    seenWrites (attach_step cfg resp sendOk link st).2 = [] := by
  unfold attach_step
  split
  · split
    · rfl
    · split
      · rfl
      · simp only [seenWrites, List.filterMap_cons, List.filterMap_append]
        rw [show (notify_pdf cfg sendOk link).filterMap evSeenWrite = [] from
          seenWrites_notify_pdf cfg sendOk link]
        rfl
  · rfl

theorem attach_step_fst_seen (cfg : Config) (resp : Str → Resp)
    (sendOk : Str → Bool) (link : Str) (st : St) :
    (attach_step cfg resp sendOk link st).1.seen = st.seen := by
  unfold attach_step
  split
  · split
    · rfl
    · split
      · rfl
      · exact pdf_mark_sent_seen st link
  · rfl

theorem seenWrites_notify_block (cfg : Config) (resp : Str → Resp)
    (sendOk : Str → Bool) (it : Item) (company : Str) (st : St) :
    seenWrites (notify_block cfg resp sendOk it company st).2 = [] := by
  unfold notify_block
  split
  · rw [show ((attach_step cfg resp sendOk it.link st).1,
        notify_text cfg sendOk ++ (attach_step cfg resp sendOk it.link st).2).2
      = notify_text cfg sendOk ++ (attach_step cfg resp sendOk it.link st).2 from rfl]
    rw [seenWrites_append, seenWrites_notify_text, seenWrites_attach_step]
    rfl
  · rfl

theorem notify_block_fst_seen (cfg : Config) (resp : Str → Resp)
    (sendOk : Str → Bool) (it : Item) (company : Str) (st : St) :
    (notify_block cfg resp sendOk it company st).1.seen = st.seen := by
  unfold notify_block
  split
  · exact attach_step_fst_seen cfg resp sendOk it.link st
  · rfl

/-- Processing a fresh Item (non-empty unseen id) whose company is a
string does not raise, emits exactly one seen-write (its own, last), and
extends the seen ledger by exactly its own key. -/
theorem handle_item_fresh (cfg : Config) (resp : Str → Resp) (sendOk : Str → Bool)
    (source : Str) (it : Item) (st : St) (c : Str)
    (hid : it.id ≠ []) (hseen : is_seen st source it.id = false)
    (hc : it.company = some c) :
    (handle_item cfg resp sendOk source it st).raised = false
    ∧ seenWrites (handle_item cfg resp sendOk source it st).trace = [(source, it.id)]
    ∧ (handle_item cfg resp sendOk source it st).st.seen = (source, it.id) :: st.seen := by
  have hg : (it.id.isEmpty || is_seen st source it.id) = false := by
    rw [Bool.or_eq_false_iff]
    exact ⟨List.isEmpty_eq_false.mpr hid, hseen⟩
  unfold handle_item
  rw [if_neg (by rw [hg]; exact Bool.false_ne_true)]
  simp only [hc]
  refine ⟨trivial, ?_, ?_⟩
  · rw [seenWrites_append, seenWrites_notify_block]
    rfl
  · have hnot : (source, it.id) ∉ (notify_block cfg resp sendOk it c st).1.seen := by
      rw [notify_block_fst_seen]
      exact is_seen_eq_false_iff.mp hseen
    rw [seen_add_seen_of_not_mem hnot, notify_block_fst_seen]

/-- Sequentially processing Items with non-empty pairwise-distinct ids,
none seen yet and all with a present company field, never aborts and
ledger-writes them in list order. -/
theorem process_items_ordered (cfg : Config) (resp : Str → Resp) (sendOk : Str → Bool)
    (source : Str) :
    ∀ (l : List Item) (st : St),
    (∀ it ∈ l, it.id ≠ [] ∧ it.company ≠ none) →
    l.Pairwise (fun a b => a.id ≠ b.id) →
    (∀ it ∈ l, is_seen st source it.id = false) →
    (process_items cfg resp sendOk source l st).2.2 = false
    ∧ seenWrites (process_items cfg resp sendOk source l st).2.1
        = l.map fun it => (source, it.id) := by
  intro l
  induction l with
  | nil => exact fun st _ _ _ => ⟨rfl, rfl⟩
  | cons it rest ih =>
    intro st hfields hpair hfresh
    obtain ⟨hid, hcomp⟩ := hfields it (List.mem_cons_self _ _)
    obtain ⟨c, hc⟩ := Option.ne_none_iff_exists'.mp hcomp
    have hseen := hfresh it (List.mem_cons_self _ _)
    obtain ⟨hr, hw, hst⟩ := handle_item_fresh cfg resp sendOk source it st c hid hseen hc
    have hfresh' : ∀ it' ∈ rest,
        is_seen (handle_item cfg resp sendOk source it st).st source it'.id = false := by
      intro it' hmem
      rw [is_seen_eq_false_iff, hst]
      intro hin
      rcases List.mem_cons.mp hin with he | hin2
      · have hne : it.id ≠ it'.id := (List.pairwise_cons.mp hpair).1 it' hmem
        have h2 := congrArg Prod.snd he
        exact hne h2.symm
      · exact is_seen_eq_false_iff.mp (hfresh it' (List.mem_cons_of_mem _ hmem)) hin2
    have hrest := ih (handle_item cfg resp sendOk source it st).st
      (fun it' h' => hfields it' (List.mem_cons_of_mem _ h'))
      (List.pairwise_cons.mp hpair).2 hfresh'
    unfold process_items
    rw [if_neg (by rw [hr]; exact Bool.false_ne_true)]
    constructor
    · exact hrest.1
    · rw [show ((process_items cfg resp sendOk source rest
            (handle_item cfg resp sendOk source it st).st).1,
          (handle_item cfg resp sendOk source it st).trace
            ++ (process_items cfg resp sendOk source rest
                (handle_item cfg resp sendOk source it st).st).2.1,
          (process_items cfg resp sendOk source rest
            (handle_item cfg resp sendOk source it st).st).2.2).2.1
        = (handle_item cfg resp sendOk source it st).trace
            ++ (process_items cfg resp sendOk source rest
                (handle_item cfg resp sendOk source it st).st).2.1 from rfl]
      rw [seenWrites_append, hw, hrest.2, List.map_cons]
      rfl

/-! ### Claim C5 -/

/-- The newest entry of a SEBI RSS fetch. -/
def entryA : RssEntry :=
  { id := String.toList "a", title := String.toList "Bonus A newest",
    link := [], summary := [], published := none }

/-- The middle entry of a SEBI RSS fetch. -/
def entryB : RssEntry :=
  { id := String.toList "b", title := String.toList "Bonus B",
    link := [], summary := [], published := none }

/-- The oldest entry of a SEBI RSS fetch. -/
def entryC : RssEntry :=
  { id := String.toList "c", title := String.toList "Bonus C oldest",
    link := [], summary := [], published := none }

/-- C5 counterexample: the claim says a fetch returning
`[A(newest), B, C(oldest)]` leads to seen-writes in order C, B, A.  For a
SEBI (RSS) cycle this is false on the code: every `fetch_rss` Item has
`company = None`, so `handle_item` raises `TypeError` on the very first
(oldest) Item, the cycle aborts, and the ledger receives zero seen-writes
instead of C, B, A. -/
theorem sebi_cycle_company_none_no_seen_writes :
    process_cycle cfg0 resp0 send0 (String.toList "SEBI")
        [fetch_rss_item entryA, fetch_rss_item entryB, fetch_rss_item entryC] st0
      = (st0, [], true)
    ∧ seenWrites (process_cycle cfg0 resp0 send0 (String.toList "SEBI")
        [fetch_rss_item entryA, fetch_rss_item entryB, fetch_rss_item entryC] st0).2.1
      ≠ [(String.toList "SEBI", String.toList "c"),
         (String.toList "SEBI", String.toList "b"),
         (String.toList "SEBI", String.toList "a")] := by
  constructor
  · with_unfolding_all decide
  · with_unfolding_all decide

/-- C5 amended: for every fetched sequence of Items whose ids are
non-empty, pairwise distinct and not yet seen, and whose company field is
present (a string -- true of NSE Items; RSS Items carry `company = None`
and abort the cycle, see the counterexample), the poll cycle processes
them in reverse of the received order without aborting, and the ledger
seen-writes occur exactly in that reversed (oldest-first) order. -/
theorem process_cycle_seen_writes_reverse_order (cfg : Config) (resp : Str → Resp)
    (sendOk : Str → Bool) (source : Str) (items : List Item) (st : St)
    (hfields : ∀ it ∈ items, it.id ≠ [] ∧ it.company ≠ none)
    (hpair : items.Pairwise fun a b => a.id ≠ b.id)
    (hfresh : ∀ it ∈ items, is_seen st source it.id = false) :
    (process_cycle cfg resp sendOk source items st).2.2 = false
    ∧ seenWrites (process_cycle cfg resp sendOk source items st).2.1
        = items.reverse.map fun it => (source, it.id) := by
  unfold process_cycle
  exact process_items_ordered cfg resp sendOk source items.reverse st
    (fun it h => hfields it (List.mem_reverse.mp h))
    (List.pairwise_reverse.mpr (hpair.imp fun h => Ne.symm h))
    (fun it h => hfresh it (List.mem_reverse.mp h))

/-- Three fresh NSE-style Items (company present), newest first. -/
def itemA : Item :=
  { id := String.toList "a", title := String.toList "Bonus A newest",
    summary := [], link := [], published := none,
    company := some (String.toList "ACME") }

/-- Middle NSE-style Item. -/
def itemB : Item :=
  { id := String.toList "b", title := String.toList "Bonus B",
    summary := [], link := [], published := none,
    company := some (String.toList "ACME") }

/-- Oldest NSE-style Item. -/
def itemC : Item :=
  { id := String.toList "c", title := String.toList "Bonus C oldest",
    summary := [], link := [], published := none,
    company := some (String.toList "ACME") }

theorem process_cycle_seen_writes_reverse_order_witness :
    (process_cycle cfg0 resp0 send0 (String.toList "NSE") [itemA, itemB, itemC] st0).2.2
      = false
    ∧ seenWrites (process_cycle cfg0 resp0 send0 (String.toList "NSE")
        [itemA, itemB, itemC] st0).2.1
      = [(String.toList "NSE", String.toList "c"),
         (String.toList "NSE", String.toList "b"),
         (String.toList "NSE", String.toList "a")] := by
  have h := process_cycle_seen_writes_reverse_order cfg0 resp0 send0
    (String.toList "NSE") [itemA, itemB, itemC] st0
    (by
      intro it hm
      simp only [List.mem_cons, List.not_mem_nil, or_false] at hm
      rcases hm with rfl | rfl | rfl <;> exact ⟨by decide, by decide⟩)
    (by decide)
    (by decide)
  exact ⟨h.1, h.2.trans (by decide)⟩

/-! ### Claim C10 -/

theorem pyOr_eq_nil_iff (a b : Str) : pyOr a b = [] ↔ (a = [] ∧ b = []) := by
  unfold pyOr
  split
  case isTrue h =>
    rw [List.isEmpty_iff] at h
    simp [h]
  case isFalse h =>
    rw [Bool.not_eq_true, List.isEmpty_eq_false] at h
    simp [h]

theorem pyOrO_eq_nil_iff (a : Option Str) (rest : Str) :
    pyOrO a rest = [] ↔ (a.getD [] = [] ∧ rest = []) :=
  pyOr_eq_nil_iff _ _

/-- An RSS entry carrying no id, no link and no title. -/
def emptyEntry : RssEntry :=
  { id := [], title := [], link := [], summary := [], published := none }

/-- An NSE record with every key absent. -/
def emptyRecord : NseRecord :=
  { id := none, slno := none, attachmentName := none, sm_desc := none,
    headline := none, desc := none, company := none, companyName := none,
    symbol := none, attchmnt := none, attachment := none, pdfUrl := none,
    more := none, published := none }

/-- C10 counterexample: the claim says every Item produced by a fetcher
has a non-empty id.  But `fetch_rss` falls back through
`e.id or e.link or e.title`, all of which can be empty, and `fetch_nse`
through `id / slno / ATTACHMENTNAME / sm_desc+symbol` and then
`uid or title`: a record with all those fields absent or empty is emitted
with an empty id (which `handle_item` then silently skips). -/
theorem fetcher_item_empty_id_possible :
    (fetch_rss_item emptyEntry).id = []
    ∧ (fetch_nse_item emptyRecord).id = [] := by
  constructor
  · decide
  · decide

/-- C10 amended: an Item emitted by `fetch_rss` has a non-empty id
whenever the native id, link or title of the entry is non-empty (the id is
synthesized from link/title when the native id is absent); an Item
emitted by `fetch_nse` has a non-empty id whenever any of the record fields
id, slno, attachment-name, description (sm_desc/HEADLINE/desc) or symbol
fields is present and non-empty.  A record with all of these empty yields
an empty id, which the processor skips. -/
theorem fetcher_item_id_nonempty_when_fields_present :
    (∀ e : RssEntry, (e.id ≠ [] ∨ e.link ≠ [] ∨ e.title ≠ []) →
      (fetch_rss_item e).id ≠ [])
    ∧ (∀ r : NseRecord,
        (r.id.getD [] ≠ [] ∨ r.slno.getD [] ≠ [] ∨ r.attachmentName.getD [] ≠ []
          ∨ r.sm_desc.getD [] ≠ [] ∨ r.symbol.getD [] ≠ []
          ∨ r.headline.getD [] ≠ [] ∨ r.desc.getD [] ≠ []) →
        (fetch_nse_item r).id ≠ []) := by
  constructor
  · intro e h hnil
    have hnil' : pyOr (pyOr e.id e.link) e.title = [] := hnil
    rw [pyOr_eq_nil_iff] at hnil'
    obtain ⟨h12, h3⟩ := hnil'
    rw [pyOr_eq_nil_iff] at h12
    rcases h with h | h | h
    · exact h h12.1
    · exact h h12.2
    · exact h h3
  · intro r h hnil
    have hnil' : pyOr
        (pyOrO r.id (pyOrO r.slno (pyOrO r.attachmentName
          ((r.sm_desc.getD []) ++ (r.symbol.getD [])))))
        (pyOrO r.sm_desc (pyOrO r.headline (pyOrO r.desc []))) = [] := hnil
    rw [pyOr_eq_nil_iff, pyOrO_eq_nil_iff, pyOrO_eq_nil_iff, pyOrO_eq_nil_iff,
      pyOrO_eq_nil_iff, pyOrO_eq_nil_iff, pyOrO_eq_nil_iff,
      List.append_eq_nil] at hnil'
    obtain ⟨⟨hid, hslno, hattn, hsm, hsym⟩, hsm2, hhl, hdesc, -⟩ := hnil'
    rcases h with h | h | h | h | h | h | h
    · exact h hid
    · exact h hslno
    · exact h hattn
    · exact h hsm
    · exact h hsym
    · exact h hhl
    · exact h hdesc

theorem fetcher_item_id_nonempty_when_fields_present_witness :
    ((entryA.id ≠ [] ∨ entryA.link ≠ [] ∨ entryA.title ≠ [])
      ∧ (fetch_rss_item entryA).id ≠ []) ∧
    ((emptyRecord.id.getD [] ≠ [] ∨ emptyRecord.slno.getD [] ≠ []
        ∨ emptyRecord.attachmentName.getD [] ≠ []
        ∨ (String.toList "Bonus" : Str) ≠ [] ∨ emptyRecord.symbol.getD [] ≠ []
        ∨ emptyRecord.headline.getD [] ≠ [] ∨ emptyRecord.desc.getD [] ≠ [])
      ∧ (fetch_nse_item { emptyRecord with sm_desc := some (String.toList "Bonus") }).id ≠ []) :=
  ⟨⟨Or.inl (by decide),
      fetcher_item_id_nonempty_when_fields_present.1 entryA (Or.inl (by decide))⟩,
    ⟨by
      refine Or.inr (Or.inr (Or.inr (Or.inl ?_)))
      decide,
      fetcher_item_id_nonempty_when_fields_present.2
        { emptyRecord with sm_desc := some (String.toList "Bonus") }
        (by
          refine Or.inr (Or.inr (Or.inr (Or.inl ?_)))
          decide)⟩⟩

end FilingsBot
